import Mathlib

/-!
Verification of the cabineai tenant-isolated document-intelligence pipeline.

Definitions are shallow embeddings of the repository's vector-retrieval path
(`secure_chat_query`, `LLMSecurityMonitor` in the security design document),
the chat frontend's `sendMessage` handler, and the `document_classifications`
storage discipline fixed by the SQL migrations.  Components whose service
implementation is not among the source files (cache, embedding retry, OCR
reassembly, classification coalescing, chunker) are modelled from the
specification, as marked in their doc comments.
-/

namespace CabineAI

/-! ## Vector index records (migration `document_embeddings`, part_003) -/

/-- Row of the `document_embeddings` table: every stored chunk embedding
carries a mandatory `firm_id` tenant key (part_003 lines 44-69). -/
structure VecRecord where
  firm_id : Nat
  document_id : Nat
  chunk_index : Nat
  embedding : List Int
  deriving DecidableEq

/-- Cosine-ranking surrogate used by the nearest-neighbor store: results are
ranked by inner-product score against the query vector. -/
def dotProduct (v w : List Int) : Int :=
  (List.zipWith (fun a b => a * b) v w).sum

/-- Insert a record into a score-sorted list, keeping higher scores first. -/
def insertByScore (q : List Int) (r : VecRecord) : List VecRecord → List VecRecord
  | [] => [r]
  | s :: t =>
      if dotProduct q s.embedding ≤ dotProduct q r.embedding then r :: s :: t
      else s :: insertByScore q r t

/-- Rank a candidate set by similarity score (insertion sort, higher first). -/
def sortByScore (q : List Int) : List VecRecord → List VecRecord
  | [] => []
  | r :: t => insertByScore q r (sortByScore q t)

/-- The vector store's `query` call with the tenant key applied as a hard
metadata filter, as in `vector_db.query(filter={"firm_id": {"$eq": ...}})`
(part_007 lines 1614-1621): filter by tenant, rank by score, take top-k. -/
def vector_db_query (store : List VecRecord) (firm : Nat) (q : List Int)
    (top_k : Nat) : List VecRecord :=
  (sortByScore q (store.filter (fun r => r.firm_id == firm))).take top_k

/-! ## LLMSecurityMonitor (part_007 lines 1503-1546) -/

/-- Lower-case a string character-wise, the model of Python `str.lower()`. -/
def lowerChars (s : String) : List Char :=
  s.data.map Char.toLower

/-- Whether `pat` is a prefix of `cs` (character lists). -/
def isPrefixList : List Char → List Char → Bool
  | [], _ => true
  | _ :: _, [] => false
  | p :: ps, c :: cs => p == c && isPrefixList ps cs

/-- Whether `pat` occurs as a contiguous substring of `cs`, the model of
Python `pat in s`. -/
def containsSub (pat : List Char) : List Char → Bool
  | [] => isPrefixList pat []
  | c :: cs => isPrefixList pat (c :: cs) || containsSub pat cs

/-- The prompt-injection red-flag patterns of
`LLMSecurityMonitor.monitor_prompt_injection` (part_007 lines 1506-1515). -/
def red_flags : List String :=
  ["ignore previous instructions", "you are now", "system:",
   "forget everything", "reveal the prompt", "تجاهل التعليمات", "أنت الآن"]

/-- `monitor_prompt_injection`: true when some red flag occurs (case
insensitively) in the user input (part_007 lines 1504-1529). -/
def monitor_prompt_injection (user_input : String) : Bool :=
  red_flags.any (fun flag => containsSub (lowerChars flag) (lowerChars user_input))

/-- `monitor_cross_tenant_access`: true when some returned document's stored
`firm_id` differs from the querying user's firm (part_007 lines 1531-1546). -/
def monitor_cross_tenant_access (expected_firm_id : Nat)
    (query_results : List VecRecord) : Bool :=
  query_results.any (fun doc => doc.firm_id != expected_firm_id)

/-- The two abort modes of `secure_chat_query`: HTTP 403 "Suspicious input
detected" and HTTP 500 "Security violation detected". -/
inductive ChatQueryError where
  | suspiciousInput
  | securityViolation
  deriving DecidableEq

/-- Step 4 of `secure_chat_query` (part_007 lines 1654-1657): the
post-retrieval double-check; a cross-tenant result aborts the whole request
with HTTP 500, delivering nothing. -/
def secure_chat_post_check (firm : Nat) (results : List VecRecord) :
    Except ChatQueryError (List VecRecord) :=
  if monitor_cross_tenant_access firm results then .error .securityViolation
  else .ok results

/-- `secure_chat_query` (part_007 lines 1604-1659): sanitize the input,
query the vector store with the tenant key as a hard non-editable filter,
then double-check every returned record's stored tenant key. -/
def secure_chat_query (get_embedding : String → List Int)
    (store : List VecRecord) (user_input : String) (user_firm : Nat) :
    Except ChatQueryError (List VecRecord) :=
  if monitor_prompt_injection user_input then .error .suspiciousInput
  else secure_chat_post_check user_firm
    (vector_db_query store user_firm (get_embedding user_input) 10)

/-! ## Membership lemmas for the retrieval path -/

theorem mem_insertByScore {q : List Int} {r x : VecRecord} :
    ∀ {l : List VecRecord}, x ∈ insertByScore q r l → x = r ∨ x ∈ l := by
  intro l
  induction l with
  | nil => intro h; simpa [insertByScore] using h
  | cons s t ih =>
      intro h
      by_cases hc : dotProduct q s.embedding ≤ dotProduct q r.embedding
      · simp only [insertByScore, if_pos hc, List.mem_cons] at h
        rcases h with h | h | h
        · exact Or.inl h
        · exact Or.inr (by simp [h])
        · exact Or.inr (List.mem_cons_of_mem _ h)
      · simp only [insertByScore, if_neg hc, List.mem_cons] at h
        rcases h with h | h
        · exact Or.inr (by simp [h])
        · rcases ih h with h | h
          · exact Or.inl h
          · exact Or.inr (List.mem_cons_of_mem _ h)

theorem mem_sortByScore {q : List Int} {x : VecRecord} :
    ∀ {l : List VecRecord}, x ∈ sortByScore q l → x ∈ l := by
  intro l
  induction l with
  | nil => intro h; simp [sortByScore] at h
  | cons r t ih =>
      intro h
      rcases mem_insertByScore h with h | h
      · simp [h]
      · exact List.mem_cons_of_mem _ (ih h)

theorem mem_vector_db_query {store : List VecRecord} {firm : Nat}
    {q : List Int} {k : Nat} {r : VecRecord}
    (h : r ∈ vector_db_query store firm q k) : r.firm_id = firm := by
  have h1 : r ∈ sortByScore q (store.filter (fun s => s.firm_id == firm)) :=
    List.mem_of_mem_take h
  have h2 : r ∈ store.filter (fun s => s.firm_id == firm) := mem_sortByScore h1
  have h3 := List.of_mem_filter h2
  simpa using h3

/-! ## C1 and C2 -/

/-- C1: for every pair of distinct tenants A and B and every store state
(hence under any interleaving of concurrent writes by both tenants), a
vector-index query issued for tenant A through `secure_chat_query` — with the
tenant key applied as a hard filter predicate — never returns a record whose
stored tenant key is B: every returned record carries A's key. -/
theorem C1_tenant_isolation (get_embedding : String → List Int)
    (store : List VecRecord) (user_input : String) (firmA firmB : Nat)
    (results : List VecRecord) (r : VecRecord)
    (hAB : firmA ≠ firmB)
    (hq : secure_chat_query get_embedding store user_input firmA = .ok results)
    (hr : r ∈ results) : r.firm_id = firmA ∧ r.firm_id ≠ firmB := by
  unfold secure_chat_query at hq
  by_cases hpi : monitor_prompt_injection user_input
  · simp [hpi] at hq
  · simp only [hpi, if_neg, Bool.false_eq_true, not_false_iff, if_false] at hq
    unfold secure_chat_post_check at hq
    by_cases hm : monitor_cross_tenant_access firmA
        (vector_db_query store firmA (get_embedding user_input) 10)
    · simp [hm] at hq
    · simp only [hm, Bool.false_eq_true, not_false_iff, if_false,
        Except.ok.injEq] at hq
      subst hq
      have := mem_vector_db_query hr
      exact ⟨this, this ▸ hAB⟩

/-- Witness for C1 at a concrete two-tenant store and query. -/
theorem C1_tenant_isolation_witness :
    (1 : Nat) ≠ 2 ∧
    secure_chat_query (fun _ => [1, 0]) [⟨2, 7, 0, [0, 1]⟩, ⟨1, 3, 0, [1, 0]⟩]
      "find force majeure clauses" 1 = .ok [⟨1, 3, 0, [1, 0]⟩] ∧
    (⟨1, 3, 0, [1, 0]⟩ : VecRecord) ∈ [(⟨1, 3, 0, [1, 0]⟩ : VecRecord)] ∧
    (⟨1, 3, 0, [1, 0]⟩ : VecRecord).firm_id = 1 ∧
    (⟨1, 3, 0, [1, 0]⟩ : VecRecord).firm_id ≠ 2 :=
  ⟨by decide, rfl, by decide,
   (C1_tenant_isolation (fun _ => [1, 0])
      [⟨2, 7, 0, [0, 1]⟩, ⟨1, 3, 0, [1, 0]⟩]
      "find force majeure clauses" 1 2 [⟨1, 3, 0, [1, 0]⟩] ⟨1, 3, 0, [1, 0]⟩
      (by decide) rfl (by decide)).1,
   (C1_tenant_isolation (fun _ => [1, 0])
      [⟨2, 7, 0, [0, 1]⟩, ⟨1, 3, 0, [1, 0]⟩]
      "find force majeure clauses" 1 2 [⟨1, 3, 0, [1, 0]⟩] ⟨1, 3, 0, [1, 0]⟩
      (by decide) rfl (by decide)).2⟩

/-- C2: whenever the post-retrieval check of the retrieval path finds a
returned result whose stored tenant key differs from the querying tenant's
key, the whole request aborts with the critical integrity error (HTTP 500
"Security violation detected"): no result list — in particular not the
mismatching one — is ever delivered to the caller. -/
theorem C2_post_retrieval_abort (firm : Nat) (results : List VecRecord)
    (h : ∃ r ∈ results, r.firm_id ≠ firm) :
    secure_chat_post_check firm results = .error .securityViolation ∧
    ∀ out, secure_chat_post_check firm results ≠ .ok out := by
  have hm : monitor_cross_tenant_access firm results = true := by
    rcases h with ⟨r, hr, hne⟩
    unfold monitor_cross_tenant_access
    exact List.any_eq_true.2 ⟨r, hr, by simpa using hne⟩
  refine ⟨by simp [secure_chat_post_check, hm], ?_⟩
  intro out
  simp [secure_chat_post_check, hm]

/-- Witness for C2 at a concrete mismatching result list. -/
theorem C2_post_retrieval_abort_witness :
    (∃ r ∈ [(⟨2, 7, 0, [0, 1]⟩ : VecRecord)], r.firm_id ≠ 1) ∧
    secure_chat_post_check 1 [⟨2, 7, 0, [0, 1]⟩] =
      .error .securityViolation :=
  ⟨⟨⟨2, 7, 0, [0, 1]⟩, by decide, by decide⟩,
   (C2_post_retrieval_abort 1 [⟨2, 7, 0, [0, 1]⟩]
      ⟨⟨2, 7, 0, [0, 1]⟩, by decide, by decide⟩).1⟩

/-! ## Embedding cache (C3) -/

/-- Modelled from the spec: the `CacheService` and `EmbeddingService`
implementations (`backend/app/services/cache_service.py`,
`backend/app/services/embedding_service.py`) are not among the source files;
§4.4 of the spec fixes the algorithm "(1) compute a content+tenant hash for
each chunk; (2) look up the cache — cache hit returns immediately, no
external call".  The cache key is the content+tenant pair. -/
def embCacheKey (tenant : Nat) (text : String) : Nat × String :=
  (tenant, text)

/-- Modelled from the spec: the embedding cache as an association list from
content+tenant keys to vectors (the LRU bookkeeping of the absent
`CacheService` does not affect hit/miss correctness and is elided). -/
def cacheLookup : List ((Nat × String) × List Int) → Nat × String →
    Option (List Int)
  | [], _ => none
  | (k, v) :: rest, key => if k = key then some v else cacheLookup rest key

/-- Outcome of one embedding request: the updated cache, the vector returned
to the caller, and how many external provider calls were issued (0 or 1). -/
structure EmbedOutcome where
  cache : List ((Nat × String) × List Int)
  vector : List Int
  external_calls : Nat
  deriving DecidableEq

/-- Modelled from the spec: cache-first embedding lookup of §4.4 — a hit
returns immediately with no external call; a miss performs exactly one
external provider call and stores the vector under the content+tenant key. -/
def get_embedding_cached (provider : Nat → String → List Int)
    (cache : List ((Nat × String) × List Int)) (tenant : Nat)
    (text : String) : EmbedOutcome :=
  match cacheLookup cache (embCacheKey tenant text) with
  | some v => ⟨cache, v, 0⟩
  | none =>
      let v := provider tenant text
      ⟨(embCacheKey tenant text, v) :: cache, v, 1⟩

/-- Looking up a key other than the one just inserted is unchanged. -/
theorem cacheLookup_insert_ne (cache : List ((Nat × String) × List Int))
    (k k2 : Nat × String) (v : List Int) (hne : k2 ≠ k) :
    cacheLookup ((k, v) :: cache) k2 = cacheLookup cache k2 := by
  simp [cacheLookup, Ne.symm hne]

/-- C3: for every (tenant, text) pair whose key is not yet cached, embedding
the pair twice issues exactly one external provider call: the first request
misses, calls the provider once and stores the vector; the second request is
a hit that returns the same vector with zero external calls.  The key folds
in the tenant, so a different tenant's identical text maps to a different
key and cannot collide with the stored entry. -/
theorem C3_embedding_cache (provider : Nat → String → List Int)
    (cache : List ((Nat × String) × List Int)) (tenant : Nat) (text : String)
    (hmiss : cacheLookup cache (embCacheKey tenant text) = none) :
    (get_embedding_cached provider cache tenant text).external_calls = 1 ∧
    (get_embedding_cached provider
        (get_embedding_cached provider cache tenant text).cache tenant
        text).external_calls = 0 ∧
    (get_embedding_cached provider
        (get_embedding_cached provider cache tenant text).cache tenant
        text).vector =
      (get_embedding_cached provider cache tenant text).vector ∧
    ∀ tenant2, tenant2 ≠ tenant →
      cacheLookup (get_embedding_cached provider cache tenant text).cache
          (embCacheKey tenant2 text) =
        cacheLookup cache (embCacheKey tenant2 text) := by
  have hmiss2 : cacheLookup cache (tenant, text) = none := hmiss
  refine ⟨?_, ?_, ?_, ?_⟩
  · simp [get_embedding_cached, embCacheKey, hmiss2]
  · simp [get_embedding_cached, embCacheKey, hmiss2, cacheLookup]
  · simp [get_embedding_cached, embCacheKey, hmiss2, cacheLookup]
  · intro tenant2 hne
    simp only [get_embedding_cached, embCacheKey, hmiss2]
    exact cacheLookup_insert_ne cache _ _ _ (by simp [hne])

/-- Witness for C3 on an empty cache with a concrete provider. -/
theorem C3_embedding_cache_witness :
    cacheLookup [] (embCacheKey 1 "force majeure clause") = none ∧
    (get_embedding_cached (fun t _ => [Int.ofNat t]) [] 1
        "force majeure clause").external_calls = 1 ∧
    (get_embedding_cached (fun t _ => [Int.ofNat t])
        (get_embedding_cached (fun t _ => [Int.ofNat t]) [] 1
          "force majeure clause").cache 1
        "force majeure clause").external_calls = 0 :=
  ⟨rfl,
   (C3_embedding_cache (fun t _ => [Int.ofNat t]) [] 1
      "force majeure clause" rfl).1,
   (C3_embedding_cache (fun t _ => [Int.ofNat t]) [] 1
      "force majeure clause" rfl).2.1⟩

/-! ## Chat frontend `sendMessage` (part_000 lines 121-167) -/

/-- Displayed chat message: role ("user" / "assistant") and content. -/
structure ChatMessage where
  role : String
  content : String
  deriving DecidableEq

/-- Character-level string trim, the model of JavaScript `String.trim()`. -/
def jsTrim (s : String) : String :=
  ⟨((s.data.dropWhile Char.isWhitespace).reverse.dropWhile
      Char.isWhitespace).reverse⟩

/-- State of the `Chat` component relevant to `sendMessage`: the displayed
message list, the input box, the error banner and the sending flag. -/
structure ChatComponentState where
  messages : List ChatMessage
  newMessage : String
  error : Option String
  sending : Bool
  hasConversation : Bool
  deriving DecidableEq

/-- Outcome of the `POST /chat/messages` request: on success the component
reloads the message list from the server (`loadMessages`); on failure the
HTTP status code of the error response. -/
inductive SendOutcome where
  | ok (server_messages : List ChatMessage)
  | httpError (status : Nat)
  deriving DecidableEq

/-- `Chat.sendMessage` (part_000 lines 121-167): guard on empty input or no
selected conversation; clear the input box; append the user's message
optimistically; on success reload the list from the server; on failure set a
typed error (the 503 missing-API-key case is distinguished) and restore the
message list to the closure value captured before the send.  Returns the
final component state together with the optimistically displayed list (none
when the guard returned early). -/
def sendMessage (st : ChatComponentState) (outcome : SendOutcome) :
    ChatComponentState × Option (List ChatMessage) :=
  if jsTrim st.newMessage = "" ∨ st.hasConversation = false then (st, none)
  else
    let userMessage := jsTrim st.newMessage
    let tempUserMessage : ChatMessage := ⟨"user", userMessage⟩
    let optimistic := st.messages ++ [tempUserMessage]
    match outcome with
    | .ok server_messages =>
        ({ st with messages := server_messages, newMessage := "",
                   sending := false }, some optimistic)
    | .httpError status =>
        ({ st with messages := st.messages, newMessage := "",
                   error := some (if status = 503
                     then "chat.api_key_not_configured"
                     else "chat.error_sending_message"),
                   sending := false }, some optimistic)

/-- C10: sending a message is atomic with respect to the displayed
conversation — the user's message is appended optimistically before the
request, and if the `POST /chat/messages` request fails for any reason the
displayed message list is restored to exactly its value from before the send
(no optimistic user message, no assistant message), with a typed error that
distinguishes the HTTP 503 missing-API-key case from other failures. -/
theorem C10_send_failure_atomic (st : ChatComponentState) (status : Nat)
    (hne : jsTrim st.newMessage ≠ "") (hconv : st.hasConversation = true) :
    (sendMessage st (.httpError status)).2 =
      some (st.messages ++ [⟨"user", jsTrim st.newMessage⟩]) ∧
    (sendMessage st (.httpError status)).1.messages = st.messages ∧
    (sendMessage st (.httpError status)).1.error =
      some (if status = 503 then "chat.api_key_not_configured"
            else "chat.error_sending_message") := by
  refine ⟨?_, ?_, ?_⟩ <;> simp [sendMessage, hne, hconv]

/-- Witness for C10 at a concrete component state and a 503 failure. -/
theorem C10_send_failure_atomic_witness :
    jsTrim "hello" ≠ "" ∧
    (sendMessage ⟨[⟨"assistant", "hi"⟩], "hello", none, true, true⟩
        (.httpError 503)).1.messages = [⟨"assistant", "hi"⟩] ∧
    (sendMessage ⟨[⟨"assistant", "hi"⟩], "hello", none, true, true⟩
        (.httpError 503)).1.error = some "chat.api_key_not_configured" :=
  ⟨by decide,
   (C10_send_failure_atomic ⟨[⟨"assistant", "hi"⟩], "hello", none, true, true⟩
      503 (by decide) rfl).2.1,
   by
     have h := (C10_send_failure_atomic
       ⟨[⟨"assistant", "hi"⟩], "hello", none, true, true⟩ 503
       (by decide) rfl).2.2
     simpa using h⟩

/-! ## Classification request coalescing (C4) -/

/-- Modelled from the spec: the classification single-flight table is not
among the source files; §4.6 of the spec fixes the behavior "only one
in-flight call per document id is permitted at a time; concurrent callers
await the single in-flight result rather than issuing duplicate calls".
Events of the coalescing protocol: a caller's request for a document id, and
the completion of the in-flight external call with its result. -/
inductive CoEvent where
  | request (caller : Nat) (doc : Nat)
  | complete (doc : Nat) (res : Nat)
  deriving DecidableEq

/-- Modelled from the spec: protocol state — the in-flight table mapping a
document id to its waiting callers, the count of external calls issued, and
the results delivered to callers so far. -/
structure CoState where
  inflight : List (Nat × List Nat)
  external_calls : Nat
  delivered : List (Nat × Nat)
  deriving DecidableEq

/-- Waiters registered for a document id, if an external call is in flight. -/
def inflightWaiters : List (Nat × List Nat) → Nat → Option (List Nat)
  | [], _ => none
  | (d, ws) :: rest, doc => if d = doc then some ws else inflightWaiters rest doc

/-- Register one more waiting caller on an in-flight document id. -/
def addWaiter : List (Nat × List Nat) → Nat → Nat → List (Nat × List Nat)
  | [], _, _ => []
  | (d, ws) :: rest, doc, c =>
      if d = doc then (d, ws ++ [c]) :: rest else (d, ws) :: addWaiter rest doc c

/-- Drop the in-flight entry of a completed document id. -/
def removeInflight (l : List (Nat × List Nat)) (doc : Nat) :
    List (Nat × List Nat) :=
  l.filter (fun p => p.1 != doc)

/-- Modelled from the spec: one protocol step.  A request finding an
in-flight entry joins its waiters without a new external call; a request
finding none issues the single external call and opens the entry; a
completion delivers the one result to every waiter and closes the entry. -/
def coStep (s : CoState) (e : CoEvent) : CoState :=
  match e with
  | .request c d =>
    match inflightWaiters s.inflight d with
    | some _ => { s with inflight := addWaiter s.inflight d c }
    | none => { s with inflight := (d, [c]) :: s.inflight,
                       external_calls := s.external_calls + 1 }
  | .complete d r =>
    match inflightWaiters s.inflight d with
    | some ws => { s with inflight := removeInflight s.inflight d,
                          delivered := s.delivered ++ ws.map (fun c => (c, r)) }
    | none => s

/-- Run the protocol from the idle state over a list of events. -/
def coRun (events : List CoEvent) : CoState :=
  events.foldl coStep ⟨[], 0, []⟩

/-- The N-concurrent-requests trace: callers 0..n-1 all request document `d`
while the call is outstanding, then the external call completes with `r`. -/
def coTrace (n d r : Nat) : List CoEvent :=
  (List.range n).map (fun i => .request i d) ++ [.complete d r]

theorem coRun_requests (d : Nat) :
    ∀ n, 1 ≤ n →
      coRun ((List.range n).map (fun i => CoEvent.request i d)) =
        ⟨[(d, List.range n)], 1, []⟩ := by
  intro n
  induction n with
  | zero => intro h; omega
  | succ m ih =>
      intro _
      by_cases hm : 1 ≤ m
      · have hrange : List.range (m + 1) = List.range m ++ [m] :=
          List.range_succ m
        rw [hrange, List.map_append, coRun, List.foldl_append]
        have hprev := ih hm
        rw [coRun] at hprev
        rw [hprev]
        simp [coStep, inflightWaiters, addWaiter, hrange]
      · have hm0 : m = 0 := by omega
        subst hm0
        simp [coRun, coStep, inflightWaiters, List.range_succ]

/-- C4: for every document id and every N ≥ 1, N concurrent classification
requests for that id are coalesced: the run issues exactly one external
call, and all N callers receive the identical result; moreover no prefix of
the run ever has more than one external call issued. -/
theorem C4_classification_coalescing (n d r : Nat) (hn : 1 ≤ n) :
    (coRun (coTrace n d r)).external_calls = 1 ∧
    (coRun (coTrace n d r)).delivered =
      (List.range n).map (fun c => (c, r)) ∧
    (coRun (coTrace n d r)).delivered.length = n ∧
    (∀ p ∈ (coRun (coTrace n d r)).delivered, p.2 = r) ∧
    ∀ k, (coRun ((coTrace n d r).take k)).external_calls ≤ 1 := by
  have hfull : coRun (coTrace n d r) =
      ⟨[], 1, (List.range n).map (fun c => (c, r))⟩ := by
    rw [coTrace, coRun, List.foldl_append]
    have hprev := coRun_requests d n hn
    rw [coRun] at hprev
    rw [hprev]
    simp [coStep, inflightWaiters, removeInflight]
  refine ⟨by rw [hfull], by rw [hfull], by rw [hfull]; simp, ?_, ?_⟩
  · intro p hp
    rw [hfull] at hp
    simp only [List.mem_map] at hp
    rcases hp with ⟨c, _, hc⟩
    rw [← hc]
  · intro k
    by_cases hk : k ≤ n
    · have htake : (coTrace n d r).take k =
          (List.range k).map (fun i => CoEvent.request i d) := by
        rw [coTrace, List.take_append_of_le_length (by simp [hk]),
          ← List.map_take, List.take_range, inf_eq_left.mpr hk]
      rw [htake]
      by_cases hk1 : 1 ≤ k
      · rw [coRun_requests d k hk1]
      · have hk0 : k = 0 := by omega
        subst hk0
        simp [coRun]
    · have htake : (coTrace n d r).take k = coTrace n d r := by
        apply List.take_of_length_le
        simp [coTrace]
        omega
      rw [htake, hfull]

/-- Witness for C4 with three concurrent callers. -/
theorem C4_classification_coalescing_witness :
    1 ≤ 3 ∧
    (coRun (coTrace 3 5 42)).external_calls = 1 ∧
    (coRun (coTrace 3 5 42)).delivered = [(0, 42), (1, 42), (2, 42)] :=
  ⟨by decide,
   (C4_classification_coalescing 3 5 42 (by decide)).1,
   by
     have h := (C4_classification_coalescing 3 5 42 (by decide)).2.1
     simpa using h⟩

/-! ## Embedding retry with exponential backoff (C5) -/

/-- Modelled from the spec: the retrying embedding client of
`backend/app/services/embedding_service.py` is not among the source files;
§4.4 of the spec and the repository document (part_006 lines 128-134,
"Exponential backoff retry (3 attempts, 1s/2s/4s delays) for transient
OpenAI errors") fix the policy.  Outcome of one provider attempt for a
sub-batch: the vectors, or a transient rate-limit/timeout signal. -/
inductive EmbAttempt where
  | ok (vecs : List (List Int))
  | transient
  deriving DecidableEq

/-- The configured attempt bound: 3 attempts. -/
def max_attempts : Nat := 3

/-- The backoff base delay in seconds: about 1 second. -/
def base_delay : Nat := 1

/-- Result of retrying one sub-batch: `none` is the terminal per-chunk
error surfaced after the attempts are exhausted; `calls` counts external
provider calls; `delays` lists the backoff sleeps in seconds. -/
structure RetryOutcome where
  result : Option (List (List Int))
  calls : Nat
  delays : List Nat
  deriving DecidableEq

/-- Modelled from the spec: attempt the provider call, and on a transient
failure sleep `base_delay * 2 ^ attempt` seconds and retry, up to the
remaining attempt budget; exhaustion surfaces the terminal error. -/
def retry_embed_from (provider : Nat → EmbAttempt) :
    Nat → Nat → RetryOutcome
  | _, 0 => ⟨none, 0, []⟩
  | attempt, remaining + 1 =>
    match provider attempt with
    | .ok vs => ⟨some vs, 1, []⟩
    | .transient =>
        let rest := retry_embed_from provider (attempt + 1) remaining
        ⟨rest.result, rest.calls + 1, base_delay * 2 ^ attempt :: rest.delays⟩

/-- Retry one sub-batch's external call with the configured budget. -/
def retry_embed (provider : Nat → EmbAttempt) : RetryOutcome :=
  retry_embed_from provider 0 max_attempts

/-- Modelled from the spec: a batch is split into sub-batches; each
sub-batch is retried independently (`provider i` is the external behavior
seen by sub-batch `i`); the outcome list is index-aligned with the
sub-batches, so no sub-batch's result is dropped. -/
def embed_sub_batches (provider : Nat → Nat → EmbAttempt)
    (batches : List (List String)) : List RetryOutcome :=
  (List.range batches.length).map (fun i => retry_embed (provider i))

theorem retry_embed_from_calls_le (provider : Nat → EmbAttempt) :
    ∀ remaining attempt,
      (retry_embed_from provider attempt remaining).calls ≤ remaining := by
  intro remaining
  induction remaining with
  | zero => intro attempt; simp [retry_embed_from]
  | succ m ih =>
      intro attempt
      cases hp : provider attempt with
      | ok vs => simp [retry_embed_from, hp]
      | transient =>
          simp only [retry_embed_from, hp]
          exact Nat.succ_le_succ (ih (attempt + 1))

theorem retry_embed_from_congr {p q : Nat → EmbAttempt}
    (h : ∀ a, p a = q a) :
    ∀ remaining attempt,
      retry_embed_from p attempt remaining =
        retry_embed_from q attempt remaining := by
  intro remaining
  induction remaining with
  | zero => intro attempt; simp [retry_embed_from]
  | succ m ih =>
      intro attempt
      simp only [retry_embed_from, h attempt, ih (attempt + 1)]

theorem retry_embed_congr {p q : Nat → EmbAttempt}
    (h : ∀ a, p a = q a) : retry_embed p = retry_embed q :=
  retry_embed_from_congr h max_attempts 0

theorem embed_sub_batches_getD (provider : Nat → Nat → EmbAttempt)
    (batches : List (List String)) (i : Nat) (hi : i < batches.length) :
    (embed_sub_batches provider batches).getD i ⟨none, 0, []⟩ =
      retry_embed (provider i) := by
  unfold embed_sub_batches
  rw [List.getD_eq_getElem?_getD, List.getElem?_map, List.getElem?_range hi]
  rfl

/-- C5: a sub-batch whose external call fails transiently on every attempt
is retried with exponential backoff — 3 attempts, delays doubling from the
1-second base (1s, 2s, 4s) — and after the attempts are exhausted a
terminal per-chunk error is surfaced for that sub-batch only: every other
sub-batch's outcome is exactly its own independent retried result, the
outcome list stays index-aligned with the sub-batches (no result dropped),
and no sub-batch ever issues more than 3 external calls. -/
theorem C5_retry_backoff (provider : Nat → Nat → EmbAttempt)
    (batches : List (List String)) (i : Nat) (hi : i < batches.length)
    (hfail : ∀ a, provider i a = .transient) :
    (embed_sub_batches provider batches).length = batches.length ∧
    (embed_sub_batches provider batches).getD i ⟨none, 0, []⟩ =
      ⟨none, 3, [1, 2, 4]⟩ ∧
    (∀ j, j < batches.length → j ≠ i →
      ∀ provider2 : Nat → Nat → EmbAttempt,
        (∀ a, provider2 j a = provider j a) →
        (embed_sub_batches provider2 batches).getD j ⟨none, 0, []⟩ =
          (embed_sub_batches provider batches).getD j ⟨none, 0, []⟩) ∧
    ∀ j, ((embed_sub_batches provider batches).getD j
        ⟨none, 0, []⟩).calls ≤ 3 := by
  refine ⟨by simp [embed_sub_batches], ?_, ?_, ?_⟩
  · rw [embed_sub_batches_getD provider batches i hi]
    unfold retry_embed max_attempts
    simp [retry_embed_from, hfail 0, hfail 1, hfail 2, base_delay]
  · intro j hj _ provider2 hagree
    rw [embed_sub_batches_getD provider batches j hj,
      embed_sub_batches_getD provider2 batches j hj]
    exact retry_embed_congr hagree
  · intro j
    by_cases hj : j < batches.length
    · rw [embed_sub_batches_getD provider batches j hj]
      exact retry_embed_from_calls_le (provider j) max_attempts 0
    · rw [List.getD_eq_getElem?_getD, List.getElem?_eq_none (by
        simp [embed_sub_batches]; omega)]
      simp

/-- Witness for C5: sub-batch 0 always transient, sub-batch 1 succeeds. -/
theorem C5_retry_backoff_witness :
    (0 : Nat) < 2 ∧
    (∀ a, (fun (i : Nat) (_ : Nat) => if i = 0 then EmbAttempt.transient
        else EmbAttempt.ok [[7]]) 0 a = EmbAttempt.transient) ∧
    (embed_sub_batches
        (fun (i : Nat) (_ : Nat) => if i = 0 then EmbAttempt.transient
          else EmbAttempt.ok [[7]])
        [["a"], ["b"]]).getD 0 ⟨none, 0, []⟩ = ⟨none, 3, [1, 2, 4]⟩ ∧
    (embed_sub_batches
        (fun (i : Nat) (_ : Nat) => if i = 0 then EmbAttempt.transient
          else EmbAttempt.ok [[7]])
        [["a"], ["b"]]).getD 1 ⟨none, 0, []⟩ = ⟨some [[7]], 1, []⟩ :=
  ⟨by decide, fun _ => rfl,
   (C5_retry_backoff
      (fun (i : Nat) (_ : Nat) => if i = 0 then EmbAttempt.transient else EmbAttempt.ok [[7]])
      [["a"], ["b"]] 0 (by decide) (fun _ => rfl)).2.1,
   by decide⟩
/-! ## Partial OCR tolerance (C6) -/

/-- Modelled from the spec: the page-level partial-failure policy of
`backend/app/services/async_ocr_service.py` is not among the source files;
§4.2 of the spec fixes it: "if some pages fail after retries, the stage
returns the best-effort text with explicit gaps marked and an overall
partial status rather than failing the whole document".  Outcome of one
page's OCR after its retries. -/
inductive PageOutcome where
  | ok (text : String)
  | failed
  deriving DecidableEq

/-- Whether a page's OCR succeeded. -/
def pageOk : PageOutcome → Bool
  | .ok _ => true
  | .failed => false

/-- The explicit gap marker inserted for a failed page (1-based index). -/
def gap_marker (i : Nat) : String :=
  "[PAGE " ++ toString (i + 1) ++ " OCR FAILED]"

/-- Modelled from the spec: best-effort reassembly — each successful page
contributes its text in place, each failed page an explicit gap marker. -/
def assemble_pages (results : List PageOutcome) : List String :=
  results.enum.map (fun p =>
    match p.2 with
    | .ok t => t
    | .failed => gap_marker p.1)

/-- Modelled from the spec: overall stage status — "completed" when every
page succeeded, "failed" only when every page failed, "partial" otherwise. -/
def ocr_status (results : List PageOutcome) : String :=
  if results.all pageOk then "completed"
  else if results.any pageOk then "partial"
  else "failed"

/-- Document-level OCR result: the per-page best-effort texts in page order
and the overall status string. -/
structure OcrDocResult where
  pages : List String
  status : String
  deriving DecidableEq

/-- Modelled from the spec: the OCR stage's document-level return value. -/
def process_document_pages (results : List PageOutcome) : OcrDocResult :=
  ⟨assemble_pages results, ocr_status results⟩

/-- C6: for every document in which some pages fail OCR after their retries
while at least one page succeeds, the stage returns the best-effort text —
one entry per page, successful pages verbatim, an explicit gap marker for
each failed page — with overall status "partial", never failing the whole
document. -/
theorem C6_partial_ocr (results : List PageOutcome)
    (hfail : ∃ p ∈ results, pageOk p = false)
    (hok : ∃ p ∈ results, pageOk p = true) :
    (process_document_pages results).status = "partial" ∧
    (process_document_pages results).status ≠ "failed" ∧
    (process_document_pages results).pages.length = results.length ∧
    ∀ i, i < results.length →
      (process_document_pages results).pages.getD i "" =
        (match results.getD i .failed with
         | .ok t => t
         | .failed => gap_marker i) := by
  have hall : results.all pageOk = false := by
    rcases hfail with ⟨p, hp, hpf⟩
    by_contra hc
    rw [Bool.not_eq_false, List.all_eq_true] at hc
    rw [hc p hp] at hpf
    simp at hpf
  have hany : results.any pageOk = true := by
    rcases hok with ⟨p, hp, hpt⟩
    exact List.any_eq_true.mpr ⟨p, hp, hpt⟩
  refine ⟨?_, ?_, ?_, ?_⟩
  · simp [process_document_pages, ocr_status, hall, hany]
  · simp [process_document_pages, ocr_status, hall, hany]
  · simp [process_document_pages, assemble_pages]
  · intro i hi
    simp only [process_document_pages, assemble_pages]
    rw [List.getD_eq_getElem?_getD, List.getElem?_map,
      List.getElem?_enum]
    rw [List.getD_eq_getElem?_getD, List.getElem?_eq_getElem hi]
    simp

/-- Witness for C6: the spec's 10-page document with exactly page 5 failing
returns 9 pages of text, a marker for the missing page, and "partial". -/
theorem C6_partial_ocr_witness :
    (∃ p ∈ ([.ok "p1", .ok "p2", .ok "p3", .ok "p4", .failed, .ok "p6",
        .ok "p7", .ok "p8", .ok "p9", .ok "p10"] : List PageOutcome),
      pageOk p = false) ∧
    (∃ p ∈ ([.ok "p1", .ok "p2", .ok "p3", .ok "p4", .failed, .ok "p6",
        .ok "p7", .ok "p8", .ok "p9", .ok "p10"] : List PageOutcome),
      pageOk p = true) ∧
    (process_document_pages [.ok "p1", .ok "p2", .ok "p3", .ok "p4",
        .failed, .ok "p6", .ok "p7", .ok "p8", .ok "p9",
        .ok "p10"]).status = "partial" ∧
    (process_document_pages [.ok "p1", .ok "p2", .ok "p3", .ok "p4",
        .failed, .ok "p6", .ok "p7", .ok "p8", .ok "p9",
        .ok "p10"]).pages =
      ["p1", "p2", "p3", "p4", "[PAGE 5 OCR FAILED]", "p6", "p7", "p8",
       "p9", "p10"] :=
  ⟨⟨.failed, by decide, rfl⟩, ⟨.ok "p1", by decide, rfl⟩,
   (C6_partial_ocr [.ok "p1", .ok "p2", .ok "p3", .ok "p4", .failed,
      .ok "p6", .ok "p7", .ok "p8", .ok "p9", .ok "p10"]
      ⟨.failed, by decide, rfl⟩ ⟨.ok "p1", by decide, rfl⟩).1,
   by decide⟩
/-! ## Page-order reassembly (C7) -/

/-- Modelled from the spec: the parallel OCR gather of
`backend/app/services/async_ocr_service.py` is not among the source files;
§5 of the spec fixes the guarantee "page order is preserved in the
reassembled text regardless of completion order of the underlying parallel
tasks (reordering by index, not by arrival)".  Association-list lookup of a
completed page by its page index. -/
def lookupByKey : List (Nat × String) → Nat → Option String
  | [], _ => none
  | (d, t) :: rest, k => if d = k then some t else lookupByKey rest k

/-- Modelled from the spec: reassembly collects the per-page results by
ascending page index, not by task arrival order. -/
def reassemble (n : Nat) (completions : List (Nat × String)) : List String :=
  (List.range n).map (fun i => (lookupByKey completions i).getD "")

theorem lookupByKey_eq_some_of_mem {l : List (Nat × String)} {k : Nat}
    {v : String} (nd : (l.map Prod.fst).Nodup) (h : (k, v) ∈ l) :
    lookupByKey l k = some v := by
  induction l with
  | nil => simp at h
  | cons p rest ih =>
      obtain ⟨d, t⟩ := p
      simp only [List.map_cons, List.nodup_cons] at nd
      rcases List.mem_cons.mp h with h | h
      · rw [Prod.mk.injEq] at h
        obtain ⟨h1, h2⟩ := h
        subst h1
        subst h2
        simp [lookupByKey]
      · have hne : d ≠ k := by
          intro he
          subst he
          exact nd.1 (List.mem_map.mpr ⟨(d, v), h, rfl⟩)
        simp only [lookupByKey, if_neg hne]
        exact ih nd.2 h

theorem mem_of_lookupByKey_eq_some {l : List (Nat × String)} {k : Nat}
    {v : String} (h : lookupByKey l k = some v) : (k, v) ∈ l := by
  induction l with
  | nil => simp [lookupByKey] at h
  | cons p rest ih =>
      obtain ⟨d, t⟩ := p
      by_cases hd : d = k
      · subst hd
        simp only [lookupByKey, if_true, eq_self_iff_true] at h
        injection h with h2
        subst h2
        simp
      · simp only [lookupByKey, if_neg hd] at h
        exact List.mem_cons_of_mem _ (ih h)

theorem lookupByKey_eq_none {l : List (Nat × String)} {k : Nat}
    (h : k ∉ l.map Prod.fst) : lookupByKey l k = none := by
  induction l with
  | nil => simp [lookupByKey]
  | cons p rest ih =>
      obtain ⟨d, t⟩ := p
      simp only [List.map_cons, List.mem_cons] at h
      push_neg at h
      simp only [lookupByKey, if_neg (Ne.symm h.1)]
      exact ih h.2

theorem lookupByKey_perm {l1 l2 : List (Nat × String)} (hp : l1.Perm l2)
    (nd : (l1.map Prod.fst).Nodup) (k : Nat) :
    lookupByKey l1 k = lookupByKey l2 k := by
  have nd2 : (l2.map Prod.fst).Nodup := ((hp.map Prod.fst).nodup_iff).mp nd
  cases h : lookupByKey l1 k with
  | some v =>
      exact (lookupByKey_eq_some_of_mem nd2
        (hp.mem_iff.mp (mem_of_lookupByKey_eq_some h))).symm
  | none =>
      refine (lookupByKey_eq_none ?_).symm
      intro hk
      rcases List.mem_map.mp hk with ⟨⟨d, t⟩, hmem, hd⟩
      subst hd
      have : lookupByKey l1 d = none := h ▸ rfl
      have hmem1 : (d, t) ∈ l1 := hp.mem_iff.mpr hmem
      rw [lookupByKey_eq_some_of_mem nd hmem1] at this
      simp at this

theorem lookupByKey_enumFrom (l : List String) :
    ∀ k i, lookupByKey (List.enumFrom k l) (k + i) = l[i]? := by
  induction l with
  | nil => intro k i; simp [lookupByKey]
  | cons a rest ih =>
      intro k i
      cases i with
      | zero => simp [List.enumFrom, lookupByKey]
      | succ m =>
          have hne : k ≠ k + (m + 1) := by omega
          have harith : k + (m + 1) = (k + 1) + m := by omega
          simp only [List.enumFrom, lookupByKey, if_neg hne]
          rw [harith, ih (k + 1) m]
          simp

/-- C7: for every document processed by the OCR stage, the reassembled
full-document page list presents the pages in ascending page-index order —
regardless of the completion order of the parallel per-page tasks: for any
permutation of the indexed page completions, reassembly by index recovers
exactly the original page sequence. -/
theorem C7_reassembly_order (pages : List String)
    (completions : List (Nat × String))
    (hperm : completions.Perm pages.enum) :
    reassemble pages.length completions = pages := by
  have ndkeys : (pages.enum.map Prod.fst).Nodup := by
    rw [List.enum_map_fst]
    exact List.nodup_range _
  have ndc : (completions.map Prod.fst).Nodup :=
    ((hperm.map Prod.fst).nodup_iff).mpr ndkeys
  apply List.ext_getElem
  · simp [reassemble]
  · intro i h1 h2
    simp only [reassemble, List.getElem_map, List.getElem_range]
    rw [lookupByKey_perm hperm ndc i]
    have : lookupByKey pages.enum i = pages[i]? := by
      have := lookupByKey_enumFrom pages 0 i
      simpa [List.enum] using this
    rw [this, List.getElem?_eq_getElem h2]
    rfl

/-- Witness for C7: three pages completing out of order reassemble in page
order. -/
theorem C7_reassembly_order_witness :
    ([(2, "pg three"), (0, "pg one"), (1, "pg two")] : List (Nat × String)).Perm
      (["pg one", "pg two", "pg three"].enum) ∧
    reassemble 3 [(2, "pg three"), (0, "pg one"), (1, "pg two")] =
      ["pg one", "pg two", "pg three"] :=
  ⟨by decide,
   C7_reassembly_order ["pg one", "pg two", "pg three"]
     [(2, "pg three"), (0, "pg one"), (1, "pg two")] (by decide)⟩
/-! ## Chunker (C8) -/

/-- The chunk target size in tokens ("chunks de 512 tokens",
part_007 line 1035). -/
def chunk_size : Nat := 512

/-- The fixed chunk overlap in tokens (a fractional overlap of 12.5 percent
of the target size, within the spec's 10-20 percent band). -/
def chunk_overlap : Nat := 64

/-- Modelled from the spec: the chunker implementation is not among the
source files; §4.3 of the spec and part_007 lines 1033-1037 fix it as a
pure, synchronous, stateless splitter into overlapping token-bounded
segments.  Split a token list into segments of `chunk_size` tokens, each
consecutive pair overlapping by `chunk_overlap` tokens. -/
def chunk_tokens (tokens : List String) : List (List String) :=
  if _h : tokens.length ≤ chunk_size then [tokens]
  else tokens.take chunk_size ::
    chunk_tokens (tokens.drop (chunk_size - chunk_overlap))
termination_by tokens.length
decreasing_by
  simp only [List.length_drop]
  simp only [chunk_size, chunk_overlap] at *
  omega

/-- Tokenize a text on spaces (the token-boundary model). -/
def tokenize (text : String) : List String :=
  (text.data.splitOn ' ').map (fun cs => ⟨cs⟩)

/-- The chunker as a whole: tokenize, then split with overlap. -/
def chunk_text (text : String) : List (List String) :=
  chunk_tokens (tokenize text)

/-- Modelled from the spec: a run of the chunker inside a stateful service
context of any state type — the chunker reads nothing from and writes
nothing to the ambient state. -/
def chunk_run {σ : Type} (s : σ) (text : String) : σ × List (List String) :=
  (s, chunk_text text)

/-- C8: the chunker is a pure, stateless, deterministic function — two runs
on the same input text, from arbitrary (and arbitrarily different) ambient
service states, yield identical chunk boundaries, and a run leaves the
ambient state untouched; in particular running the chunker twice in
sequence yields byte-identical output both times. -/
theorem C8_chunker_deterministic {σ1 σ2 : Type} (s1 : σ1) (s2 : σ2)
    (text : String) :
    (chunk_run s1 text).2 = (chunk_run s2 text).2 ∧
    (chunk_run s1 text).1 = s1 ∧
    (chunk_run ((chunk_run s1 text).1) text).2 = (chunk_run s1 text).2 ∧
    (chunk_run s1 text).2 = chunk_text text :=
  ⟨rfl, rfl, rfl, rfl⟩

/-! ## Classification storage (C9) -/

/-- Row of the `document_classifications` table (part_002 lines 5-31):
document and tenant keys, the confidence score, and the model used. -/
structure ClassificationRow where
  document_id : Nat
  firm_id : Nat
  confidence_score : Rat
  model_used : String
  deriving DecidableEq

/-- The `unique_document_classification` unique index of part_002 lines
36-37: no two stored rows share the same (document_id, firm_id) pair. -/
def UniqueDocFirm (table : List ClassificationRow) : Prop :=
  (table.map (fun r => (r.document_id, r.firm_id))).Nodup

/-- Whether `q` occupies the same (document, tenant) slot as `r`. -/
def sameSlot (q r : ClassificationRow) : Bool :=
  q.document_id == r.document_id && q.firm_id == r.firm_id

/-- Modelled from the spec: the classification write path is not among the
source files; the spec's data model ("Overwritten (not appended) on
re-classification") together with the `unique_document_classification`
index of part_002 fixes it — a re-classification (forced or not) replaces
the existing row of the same (document, tenant) slot in place, and a first
classification inserts a new row. -/
def upsert_classification (table : List ClassificationRow)
    (r : ClassificationRow) : List ClassificationRow :=
  if table.any (fun q => sameSlot q r) then
    table.map (fun q => if sameSlot q r then r else q)
  else r :: table

/-- Confidence scores produced by the classification stage lie in [0,1]
(spec data model; part_002 comment on `confidence_score`). -/
def ConfidenceValid (r : ClassificationRow) : Prop :=
  0 ≤ r.confidence_score ∧ r.confidence_score ≤ 1

theorem sameSlot_doc {q r : ClassificationRow} (h : sameSlot q r = true) :
    q.document_id = r.document_id := by
  unfold sameSlot at h
  rcases Bool.and_eq_true_iff.mp h with ⟨h1, _⟩
  exact Nat.eq_of_beq_eq_true (by simpa using h1)

theorem sameSlot_firm {q r : ClassificationRow} (h : sameSlot q r = true) :
    q.firm_id = r.firm_id := by
  unfold sameSlot at h
  rcases Bool.and_eq_true_iff.mp h with ⟨_, h2⟩
  exact Nat.eq_of_beq_eq_true (by simpa using h2)

theorem upsert_keys_of_replace (table : List ClassificationRow)
    (r : ClassificationRow) :
    ((table.map (fun q => if sameSlot q r then r else q)).map
        (fun q => (q.document_id, q.firm_id))) =
      table.map (fun q => (q.document_id, q.firm_id)) := by
  rw [List.map_map]
  apply List.map_congr_left
  intro q _
  by_cases hs : sameSlot q r
  · simp [Function.comp, hs, sameSlot_doc hs, sameSlot_firm hs]
  · simp [Function.comp, hs]

/-- C9: classification storage keeps at most one stored result per
(document, tenant) slot — the unique-index invariant is preserved by every
write; a re-classification (the slot already occupied, as with a forced
re-classify) overwrites the existing row in place, leaving the row count
unchanged and storing the new row, rather than appending a second one; and
when the incoming result's confidence score lies in [0,1] and all stored
scores do, every stored score still lies in [0,1] after the write. -/
theorem C9_classification_unique_overwrite (table : List ClassificationRow)
    (r : ClassificationRow) (hu : UniqueDocFirm table)
    (hconf : ConfidenceValid r)
    (hall : ∀ q ∈ table, ConfidenceValid q) :
    UniqueDocFirm (upsert_classification table r) ∧
    ((table.any (fun q => sameSlot q r)) = true →
      (upsert_classification table r).length = table.length ∧
      r ∈ upsert_classification table r) ∧
    ∀ q ∈ upsert_classification table r, ConfidenceValid q := by
  refine ⟨?_, ?_, ?_⟩
  · unfold upsert_classification
    by_cases hocc : table.any (fun q => sameSlot q r)
    · rw [if_pos hocc]
      unfold UniqueDocFirm
      rw [upsert_keys_of_replace]
      exact hu
    · rw [if_neg hocc]
      unfold UniqueDocFirm
      rw [List.map_cons, List.nodup_cons]
      refine ⟨?_, hu⟩
      intro hmem
      rcases List.mem_map.mp hmem with ⟨q, hq, hkey⟩
      apply hocc
      refine List.any_eq_true.mpr ⟨q, hq, ?_⟩
      unfold sameSlot
      rw [Prod.mk.injEq] at hkey
      simp [hkey.1, hkey.2]
  · intro hocc
    unfold upsert_classification
    rw [if_pos hocc]
    constructor
    · rw [List.length_map]
    · rcases List.any_eq_true.mp hocc with ⟨q, hq, hs⟩
      refine List.mem_map.mpr ⟨q, hq, ?_⟩
      rw [if_pos hs]
  · intro q hq
    unfold upsert_classification at hq
    by_cases hocc : table.any (fun w => sameSlot w r)
    · rw [if_pos hocc] at hq
      rcases List.mem_map.mp hq with ⟨w, hw, heq⟩
      by_cases hs : sameSlot w r
      · rw [if_pos hs] at heq
        exact heq ▸ hconf
      · rw [if_neg hs] at heq
        exact heq ▸ hall w hw
    · rw [if_neg hocc] at hq
      rcases List.mem_cons.mp hq with hq | hq
      · exact hq ▸ hconf
      · exact hall q hq

/-- Witness for C9: a forced re-classification of document 4 for firm 1
overwrites the stored row in place. -/
theorem C9_classification_unique_overwrite_witness :
    UniqueDocFirm [⟨4, 1, 1/2, "gpt-4o-mini"⟩, ⟨9, 1, 3/4, "gpt-4o"⟩] ∧
    ConfidenceValid ⟨4, 1, 9/10, "gpt-4o"⟩ ∧
    UniqueDocFirm (upsert_classification
      [⟨4, 1, 1/2, "gpt-4o-mini"⟩, ⟨9, 1, 3/4, "gpt-4o"⟩]
      ⟨4, 1, 9/10, "gpt-4o"⟩) ∧
    (upsert_classification
      [⟨4, 1, 1/2, "gpt-4o-mini"⟩, ⟨9, 1, 3/4, "gpt-4o"⟩]
      ⟨4, 1, 9/10, "gpt-4o"⟩).length = 2 := by
  have h := C9_classification_unique_overwrite
    [⟨4, 1, 1/2, "gpt-4o-mini"⟩, ⟨9, 1, 3/4, "gpt-4o"⟩]
    ⟨4, 1, 9/10, "gpt-4o"⟩
    (by unfold UniqueDocFirm; decide)
    (by unfold ConfidenceValid; norm_num)
    (by
      intro q hq
      unfold ConfidenceValid
      rcases List.mem_cons.mp hq with hq | hq
      · subst hq; norm_num
      · rcases List.mem_cons.mp hq with hq | hq
        · subst hq; norm_num
        · simp at hq)
  refine ⟨by unfold UniqueDocFirm; decide,
    by unfold ConfidenceValid; norm_num, h.1, ?_⟩
  have h2 := (h.2.1 (by decide)).1
  simpa using h2

end CabineAI
